import Mathlib

/-!
Verification of the concurrent shader-compilation engine in
`ShaderGenerator/ShaderCompiler.cpp`.

The engine is embedded shallowly:

* The external Direct3D compiler backend (`D3DCompileFromFile`,
  `D3DGetBlobPart`, `D3DStripShader`) is an opaque `Backend` record of
  functions; the shader description (path, entry point, target profile) is a
  batch constant absorbed into the backend record.
* Compilation flags are the symbolic `D3DCOMPILE_*` constants accumulated by
  `|=` in source order; their numeric values live in the external SDK header
  and are not part of this repository, so they are modelled as distinct
  constructors.
* The shared `ShaderCompilationContext` becomes `BatchState` (failure flag,
  output list, deduplication set, emitted log, plus an observational trace of
  attempted permutations).  Each worker-loop iteration touches the shared
  state in short lock-guarded critical sections while the backend call runs
  unlocked and is pure with respect to the shared state, so the batch is
  embedded at per-permutation granularity: the queue is drained front to
  back, one full iteration at a time.  All properties proved below are
  insensitive to the ordering differences between this serialisation and any
  interleaving of the worker pool.
* The `errors` diagnostics blob returned by the backend may be null
  (`Option`); the worker dereferences it unconditionally, so the
  per-permutation step is `Option`-valued and returns `none` exactly when the
  dereference has no defined result.
-/

namespace ShaderGenerator

/-- One shader option permutation: an identifying key plus preprocessor
defines, as produced by the external permutation source. -/
structure OptionPermutation where
  Key : Nat
  Defines : List (String × String)
deriving DecidableEq, Repr

/-- The compilation options shared read-only across all workers. -/
structure CompilationOptions where
  IsDebug : Bool
  UseExternalDebugSymbols : Bool
  OptimizationLevel : Int
deriving DecidableEq, Repr

/-- The `D3DCOMPILE_*` flag constants named by the source.  Their numeric
values come from the external SDK header, not this repository, so they are
kept symbolic. -/
inductive CompileFlag where
  | D3DCOMPILE_DEBUG
  | D3DCOMPILE_DEBUG_NAME_FOR_BINARY
  | D3DCOMPILE_SKIP_OPTIMIZATION
  | D3DCOMPILE_OPTIMIZATION_LEVEL0
  | D3DCOMPILE_OPTIMIZATION_LEVEL1
  | D3DCOMPILE_OPTIMIZATION_LEVEL2
  | D3DCOMPILE_OPTIMIZATION_LEVEL3
deriving DecidableEq, Repr

/-- Flag derivation, mirroring the `flags |= ...` statements and the
`switch (context.Options->OptimizationLevel)` of `CompileWorker`
(ShaderCompiler.cpp lines 66-89).  The `default`-less switch contributes no
flag for levels outside `{-1,0,1,2,3}`. -/
def deriveFlags (o : CompilationOptions) : List CompileFlag :=
  let flags : List CompileFlag := []
  let flags :=
    if o.IsDebug then
      flags ++ [CompileFlag.D3DCOMPILE_DEBUG, CompileFlag.D3DCOMPILE_DEBUG_NAME_FOR_BINARY]
    else flags
  if o.OptimizationLevel = -1 then flags ++ [CompileFlag.D3DCOMPILE_SKIP_OPTIMIZATION]
  else if o.OptimizationLevel = 0 then flags ++ [CompileFlag.D3DCOMPILE_OPTIMIZATION_LEVEL0]
  else if o.OptimizationLevel = 1 then flags ++ [CompileFlag.D3DCOMPILE_OPTIMIZATION_LEVEL1]
  else if o.OptimizationLevel = 2 then flags ++ [CompileFlag.D3DCOMPILE_OPTIMIZATION_LEVEL2]
  else if o.OptimizationLevel = 3 then flags ++ [CompileFlag.D3DCOMPILE_OPTIMIZATION_LEVEL3]
  else flags

/-- The optimization-related subset of the flag constants. -/
def isOptimizationFlag : CompileFlag → Bool
  | CompileFlag.D3DCOMPILE_SKIP_OPTIMIZATION => true
  | CompileFlag.D3DCOMPILE_OPTIMIZATION_LEVEL0 => true
  | CompileFlag.D3DCOMPILE_OPTIMIZATION_LEVEL1 => true
  | CompileFlag.D3DCOMPILE_OPTIMIZATION_LEVEL2 => true
  | CompileFlag.D3DCOMPILE_OPTIMIZATION_LEVEL3 => true
  | _ => false

/-- The macro list handed to the backend: one `D3D_SHADER_MACRO` per define
plus the `{ nullptr, nullptr }` sentinel demanded by the calling convention
(ShaderCompiler.cpp lines 58-63).  The sentinel is `none`. -/
def buildMacros (defines : List (String × String)) : List (Option (String × String)) :=
  defines.map some ++ [none]

/-- Outcome of one backend compile invocation: success bit, produced binary,
and the diagnostics blob, which may be null (`none`). -/
structure CompileOutcome where
  success : Bool
  binary : List UInt8
  errors : Option String
deriving DecidableEq, Repr

/-- The external compiler backend (`D3DCompileFromFile`, `D3DGetBlobPart`
for `D3D_BLOB_PDB` and `D3D_BLOB_DEBUG_NAME`, `D3DStripShader`).  The shader
source path, entry point and target profile are batch constants absorbed
into the record. -/
structure Backend where
  compile : List (Option (String × String)) → List CompileFlag → CompileOutcome
  getPdb : List UInt8 → Option (List UInt8)
  getDebugName : List UInt8 → Option (List UInt8)
  strip : List UInt8 → List UInt8

/-- The backend never returns a null diagnostics blob.  The worker
dereferences the blob unconditionally, so this is the precondition for the
batch to have a defined result. -/
def TotalErrors (be : Backend) : Prop :=
  ∀ macros flags, (be.compile macros flags).errors ≠ none

/-- The per-permutation compile result.  Modelled from the spec: the
`CompiledShader` record is declared in a header outside this repository;
per spec section 3 it carries the copied key, the final binary bytes and
optional debug-symbol name/data. -/
structure CompiledShader where
  Key : Nat
  Data : List UInt8
  PdbName : Option (List UInt8)
  PdbData : Option (List UInt8)
deriving DecidableEq, Repr

/-- The `ShaderDebugName` header at the front of the debug-name blob
(ShaderCompiler.cpp lines 31-35): two 16-bit fields. -/
structure ShaderDebugName where
  Flags : Nat
  NameLength : Nat
deriving DecidableEq, Repr

/-- Byte layout of `ShaderDebugName`: two little-endian 16-bit fields,
4 bytes in total. -/
def encodeShaderDebugName (d : ShaderDebugName) : List UInt8 :=
  [UInt8.ofNat (d.Flags % 256), UInt8.ofNat (d.Flags / 256 % 256),
   UInt8.ofNat (d.NameLength % 256), UInt8.ofNat (d.NameLength / 256 % 256)]

/-- Reading a C string: the bytes up to (excluding) the first NUL. -/
def readCString (bytes : List UInt8) : List UInt8 :=
  bytes.takeWhile (fun b => b ≠ 0)

/-- The debug-name parse of `CompileWorker` lines 118-121: skip the 4-byte
`ShaderDebugName` header (`pDebugNameData + 1`) and read the file name as a
C string from the bytes that follow, ignoring both header fields. -/
def parseDebugName (blob : List UInt8) : List UInt8 :=
  readCString (blob.drop 4)

/-- Post-processing of one successful or failed compile (ShaderCompiler.cpp
lines 53-55 and 104-135): key is copied up front; on success with
`IsDebug && UseExternalDebugSymbols` the pdb and debug-name blobs are
extracted, recorded when both are present, and the binary is debug-stripped
unconditionally in that branch; the (possibly stripped) binary becomes
`Data`. -/
def postProcessResult (be : Backend) (opts : CompilationOptions) (p : OptionPermutation)
    (outcome : CompileOutcome) : CompiledShader :=
  if outcome.success then
    if opts.IsDebug && opts.UseExternalDebugSymbols then
      match be.getPdb outcome.binary, be.getDebugName outcome.binary with
      | some pdbBytes, some nameBytes =>
          { Key := p.Key, Data := be.strip outcome.binary,
            PdbName := some (parseDebugName nameBytes), PdbData := some pdbBytes }
      | _, _ =>
          { Key := p.Key, Data := be.strip outcome.binary,
            PdbName := none, PdbData := none }
    else
      { Key := p.Key, Data := outcome.binary, PdbName := none, PdbData := none }
  else
    { Key := p.Key, Data := [], PdbName := none, PdbData := none }

/-- Shared batch state: the `ShaderCompilationContext` fields mutated by the
workers, plus `Emitted` (the user-visible log, in emission order) and
`Attempted` (observational trace of dequeued permutations). -/
structure BatchState where
  IsFailed : Bool
  Output : List CompiledShader
  Messages : List String
  Emitted : List String
  Attempted : List OptionPermutation
deriving DecidableEq, Repr

/-- The context as constructed at batch start: nothing failed, no output,
no messages. -/
def initState : BatchState :=
  { IsFailed := false, Output := [], Messages := [], Emitted := [], Attempted := [] }

/-- Splitting the diagnostics text into lines with `std::getline(_, _, ...)`
semantics: the final fragment is produced only when non-trivial (a trailing
separator yields no extra empty line; an empty text yields no line). -/
def getlinesAux : List Char → List Char → List String
  | [], acc => [String.mk acc.reverse]
  | c :: rest, acc =>
    if c = Char.ofNat 10 then
      String.mk acc.reverse :: (if rest.isEmpty then [] else getlinesAux rest [])
    else
      getlinesAux rest (c :: acc)

/-- All lines of a diagnostics text, `getline` style. -/
def getlines (s : String) : List String :=
  match s.data with
  | [] => []
  | c :: rest => getlinesAux (c :: rest) []

/-- Characters the ECMAScript `.` atom refuses to match (line terminators). -/
def isLineTerm (c : Char) : Bool :=
  c = Char.ofNat 10 || c = Char.ofNat 13 || c = Char.ofNat 0x2028 || c = Char.ofNat 0x2029

/-- The literal tail of the ignore pattern for one pragma token:
`: warning X3568: <q><token><q> : unknown pragma ignored` where `<q>` is the
single-quote character. -/
def ignoreSuffix (token : String) : List Char :=
  ": warning X3568: ".data ++ (Char.ofNat 39 :: token.data)
    ++ (Char.ofNat 39 :: " : unknown pragma ignored".data)

/-- Full-string match against the worker's
`warningIgnoreRegex` (ShaderCompiler.cpp line 141):
`.* : warning X3568: <q>(target|namespace|entry|option)<q> : unknown pragma
ignored` as an anchored ECMAScript regex — the line must end with the
literal tail and everything before it must be free of line terminators. -/
def warningIgnoreMatch (s : String) : Bool :=
  ["target", "namespace", "entry", "option"].any fun token =>
    let suf := ignoreSuffix token
    suf.reverse.isPrefixOf s.data.reverse
      && (s.data.take (s.data.length - suf.length)).all (fun c => !isLineTerm c)

/-- One `context.Messages.emplace` guarded by the ignore regex
(ShaderCompiler.cpp line 145): a non-ignored line not yet in the shared set
is inserted and printed; everything else leaves the state unchanged. -/
def emplaceEmit (st : BatchState) (message : String) : BatchState :=
  if warningIgnoreMatch message then st
  else if message ∈ st.Messages then st
  else
    { st with Messages := st.Messages ++ [message], Emitted := st.Emitted ++ [message] }

/-- The worker's message loop (lines 142-151): every line of the diagnostics
text is filtered and deduplicated in order. -/
def processMessages : List String → BatchState → BatchState
  | [], st => st
  | m :: rest, st => processMessages rest (emplaceEmit st m)

/-- One full iteration of the worker loop for a dequeued permutation
(lines 53-162): compile, post-process, print filtered messages, then either
append the result to `Output` or set the failure flag.  The diagnostics blob
is dereferenced unconditionally at line 139, so the step is undefined
(`none`) exactly when the backend returned a null blob. -/
def processPermutation (be : Backend) (opts : CompilationOptions) (p : OptionPermutation)
    (st : BatchState) : Option BatchState :=
  let outcome := be.compile (buildMacros p.Defines) (deriveFlags opts)
  let result := postProcessResult be opts p outcome
  match outcome.errors with
  | none => none
  | some errText =>
    let st1 := processMessages (getlines errText) st
    let st2 :=
      if outcome.success then { st1 with Output := st1.Output ++ [result] }
      else { st1 with IsFailed := true }
    some { st2 with Attempted := st2.Attempted ++ [p] }

/-- The worker loop (`CompileWorker`, lines 41-163) at the batch's collapsed
per-permutation granularity: pop the front of the queue and run one
iteration until the queue is empty — the sole termination condition. -/
def CompileWorker (be : Backend) (opts : CompilationOptions) :
    List OptionPermutation → BatchState → Option BatchState
  | [], st => some st
  | p :: rest, st =>
    match processPermutation be opts p st with
    | none => none
    | some st1 => CompileWorker be opts rest st1

/-- Pool sizing of `CompileShader` line 177:
`min(thread::hardware_concurrency(), permutations.size())`. -/
def threadCount (concurrency permutationCount : Nat) : Nat :=
  min concurrency permutationCount

/-- The batch run: when the pool is empty (no permutations, or zero
available parallelism) no worker ever touches the context; otherwise the
workers collectively drain the queue. -/
def runBatch (concurrency : Nat) (be : Backend) (opts : CompilationOptions)
    (permutations : List OptionPermutation) : Option BatchState :=
  if threadCount concurrency permutations.length = 0 then some initState
  else CompileWorker be opts permutations initState

/-- `CompileShader` (lines 168-195): run the batch behind the join barrier,
then return the collected output, or an empty sequence when the shared
failure flag is set. -/
def CompileShader (concurrency : Nat) (be : Backend) (opts : CompilationOptions)
    (permutations : List OptionPermutation) : Option (List CompiledShader) :=
  (runBatch concurrency be opts permutations).map fun st =>
    if st.IsFailed then [] else st.Output

/-- Whether the backend invocation for a permutation succeeds. -/
def permSuccess (be : Backend) (opts : CompilationOptions) (p : OptionPermutation) : Bool :=
  (be.compile (buildMacros p.Defines) (deriveFlags opts)).success

/-- The diagnostics blob the backend produces for a permutation. -/
def permErrors (be : Backend) (opts : CompilationOptions) (p : OptionPermutation) :
    Option String :=
  (be.compile (buildMacros p.Defines) (deriveFlags opts)).errors

/-- The defined (non-crashing) body of one worker iteration, given the
diagnostics text `e` the backend produced. -/
def processPermutationTotal (be : Backend) (opts : CompilationOptions) (p : OptionPermutation)
    (e : String) (st : BatchState) : BatchState :=
  let outcome := be.compile (buildMacros p.Defines) (deriveFlags opts)
  let st1 := processMessages (getlines e) st
  let st2 :=
    if outcome.success then
      { st1 with Output := st1.Output ++ [postProcessResult be opts p outcome] }
    else { st1 with IsFailed := true }
  { st2 with Attempted := st2.Attempted ++ [p] }

/-- Invariant tying the emitted log to the shared deduplication set: the log
equals the set in insertion order, the set is duplicate-free, and everything
in it survived the ignore filter. -/
def MessagesInv (st : BatchState) : Prop :=
  st.Emitted = st.Messages ∧ st.Messages.Nodup
    ∧ ∀ m ∈ st.Messages, warningIgnoreMatch m = false

/-- Concrete permutation used to instantiate the general theorems. -/
def permW : OptionPermutation := { Key := 42, Defines := [("A", "1")] }

/-- A second concrete permutation with its own key. -/
def permW2 : OptionPermutation := { Key := 7, Defines := [] }

/-- Options exercising the plain (non-debug) path. -/
def optsPlain : CompilationOptions :=
  { IsDebug := false, UseExternalDebugSymbols := false, OptimizationLevel := 0 }

/-- Options exercising the external-debug-symbol path. -/
def optsDbg : CompilationOptions :=
  { IsDebug := true, UseExternalDebugSymbols := true, OptimizationLevel := -1 }

/-- A backend whose every invocation succeeds with a fixed binary and a
non-null diagnostics blob. -/
def beOk : Backend :=
  { compile := fun _ _ => { success := true, binary := [1, 2, 3], errors := some "note one" }
    getPdb := fun _ => none
    getDebugName := fun _ => none
    strip := fun b => b }

/-- A backend whose every invocation fails, with diagnostics. -/
def beBad : Backend :=
  { compile := fun _ _ => { success := false, binary := [], errors := some "error: bad" }
    getPdb := fun _ => none
    getDebugName := fun _ => none
    strip := fun b => b }

/-- A backend that succeeds and exposes both debug blobs; stripping yields a
binary different from the original. -/
def beDbg : Backend :=
  { compile := fun _ _ => { success := true, binary := [1, 2, 3], errors := some "" }
    getPdb := fun _ => some [7, 7]
    getDebugName := fun _ => some [0, 0, 3, 0, 65, 66, 67, 0, 99]
    strip := fun _ => [5] }

/-- A backend that succeeds but yields no pdb blob; stripping yields a
binary different from the original. -/
def beNoPdb : Backend :=
  { compile := fun _ _ => { success := true, binary := [1, 2, 3], errors := some "" }
    getPdb := fun _ => none
    getDebugName := fun _ => some [0, 0, 3, 0, 65, 66, 67, 0]
    strip := fun _ => [5] }

/-- A backend that succeeds and repeats the same diagnostics text on every
invocation, to exercise batch-wide deduplication. -/
def beRepeat : Backend :=
  { compile := fun _ _ =>
      { success := true, binary := [1], errors := some "dup line\ndup line\nuniq line" }
    getPdb := fun _ => none
    getDebugName := fun _ => none
    strip := fun b => b }

/-- The batch state produced by draining `[permW, permW2]` against
`beRepeat`: both artifacts collected, the repeated diagnostic deduplicated. -/
def stW7 : BatchState :=
  { IsFailed := false
    Output := [{ Key := 42, Data := [1], PdbName := none, PdbData := none },
               { Key := 7, Data := [1], PdbName := none, PdbData := none }]
    Messages := ["dup line", "uniq line"]
    Emitted := ["dup line", "uniq line"]
    Attempted := [permW, permW2] }

theorem processPermutation_some_eq {be : Backend} {opts : CompilationOptions}
    {p : OptionPermutation} {e : String} (st : BatchState)
    (hE : permErrors be opts p = some e) :
    processPermutation be opts p st = some (processPermutationTotal be opts p e st) := by
  unfold permErrors at hE
  unfold processPermutation processPermutationTotal
  dsimp only
  rw [hE]

theorem postProcessResult_Key (be : Backend) (opts : CompilationOptions)
    (p : OptionPermutation) (o : CompileOutcome) :
    (postProcessResult be opts p o).Key = p.Key := by
  unfold postProcessResult
  split <;> (try split) <;> (try split) <;> rfl

theorem emplaceEmit_IsFailed (st : BatchState) (m : String) :
    (emplaceEmit st m).IsFailed = st.IsFailed := by
  unfold emplaceEmit; split_ifs <;> rfl

theorem emplaceEmit_Output (st : BatchState) (m : String) :
    (emplaceEmit st m).Output = st.Output := by
  unfold emplaceEmit; split_ifs <;> rfl

theorem emplaceEmit_Attempted (st : BatchState) (m : String) :
    (emplaceEmit st m).Attempted = st.Attempted := by
  unfold emplaceEmit; split_ifs <;> rfl

theorem processMessages_IsFailed (lines : List String) :
    ∀ st : BatchState, (processMessages lines st).IsFailed = st.IsFailed := by
  induction lines with
  | nil => intro st; rfl
  | cons m rest ih =>
    intro st
    show (processMessages rest (emplaceEmit st m)).IsFailed = st.IsFailed
    rw [ih, emplaceEmit_IsFailed]

theorem processMessages_Output (lines : List String) :
    ∀ st : BatchState, (processMessages lines st).Output = st.Output := by
  induction lines with
  | nil => intro st; rfl
  | cons m rest ih =>
    intro st
    show (processMessages rest (emplaceEmit st m)).Output = st.Output
    rw [ih, emplaceEmit_Output]

theorem processMessages_Attempted (lines : List String) :
    ∀ st : BatchState, (processMessages lines st).Attempted = st.Attempted := by
  induction lines with
  | nil => intro st; rfl
  | cons m rest ih =>
    intro st
    show (processMessages rest (emplaceEmit st m)).Attempted = st.Attempted
    rw [ih, emplaceEmit_Attempted]

theorem processPermutationTotal_Attempted (be : Backend) (opts : CompilationOptions)
    (p : OptionPermutation) (e : String) (st : BatchState) :
    (processPermutationTotal be opts p e st).Attempted = st.Attempted ++ [p] := by
  unfold processPermutationTotal
  dsimp only
  split <;> simp [processMessages_Attempted]

theorem processPermutationTotal_IsFailed (be : Backend) (opts : CompilationOptions)
    (p : OptionPermutation) (e : String) (st : BatchState) :
    (processPermutationTotal be opts p e st).IsFailed
      = (st.IsFailed || !permSuccess be opts p) := by
  unfold processPermutationTotal permSuccess
  dsimp only
  split <;> rename_i hs <;> simp [processMessages_IsFailed, hs]

theorem processPermutationTotal_Output_success (be : Backend) (opts : CompilationOptions)
    (p : OptionPermutation) (e : String) (st : BatchState)
    (hs : permSuccess be opts p = true) :
    (processPermutationTotal be opts p e st).Output
      = st.Output
        ++ [postProcessResult be opts p (be.compile (buildMacros p.Defines) (deriveFlags opts))] := by
  unfold permSuccess at hs
  unfold processPermutationTotal
  dsimp only
  split <;> rename_i hs'
  · simp [processMessages_Output]
  · exact absurd hs hs'

theorem permErrors_total {be : Backend} (hTot : TotalErrors be)
    (opts : CompilationOptions) (p : OptionPermutation) :
    ∃ e, permErrors be opts p = some e := by
  have h := hTot (buildMacros p.Defines) (deriveFlags opts)
  unfold permErrors
  cases hE : (be.compile (buildMacros p.Defines) (deriveFlags opts)).errors with
  | none => exact absurd hE h
  | some e => exact ⟨e, rfl⟩

/-- Combined specification of a full queue drain: the run is defined, every
queued permutation is attempted exactly once in queue order, the failure flag
is the saturating OR of the per-permutation failures, and with zero failures
the output grows by exactly one post-processed artifact per permutation. -/
theorem compileWorker_spec {be : Backend} (opts : CompilationOptions)
    (hTot : TotalErrors be) :
    ∀ (input : List OptionPermutation) (st : BatchState),
      ∃ st', CompileWorker be opts input st = some st'
        ∧ st'.Attempted = st.Attempted ++ input
        ∧ st'.IsFailed = (st.IsFailed || input.any fun p => !permSuccess be opts p)
        ∧ ((∀ p ∈ input, permSuccess be opts p = true) →
            st'.Output = st.Output ++ input.map fun p =>
              postProcessResult be opts p (be.compile (buildMacros p.Defines) (deriveFlags opts))) := by
  intro input
  induction input with
  | nil =>
    intro st
    exact ⟨st, rfl, by simp, by simp, by simp⟩
  | cons p rest ih =>
    intro st
    obtain ⟨e, hE⟩ := permErrors_total hTot opts p
    obtain ⟨st', hrun, hAtt, hFail, hOut⟩ := ih (processPermutationTotal be opts p e st)
    refine ⟨st', ?_, ?_, ?_, ?_⟩
    · show (match processPermutation be opts p st with
        | none => none
        | some st1 => CompileWorker be opts rest st1) = some st'
      rw [processPermutation_some_eq st hE]
      exact hrun
    · rw [hAtt, processPermutationTotal_Attempted]
      simp
    · rw [hFail, processPermutationTotal_IsFailed]
      cases hs : permSuccess be opts p <;> simp [hs]
    · intro hall
      have hp : permSuccess be opts p = true := hall p (List.mem_cons_self p rest)
      rw [hOut (fun q hq => hall q (List.mem_cons_of_mem p hq)),
        processPermutationTotal_Output_success be opts p e st hp]
      simp

theorem processPermutation_none_eq {be : Backend} {opts : CompilationOptions}
    {p : OptionPermutation} (st : BatchState) (hE : permErrors be opts p = none) :
    processPermutation be opts p st = none := by
  unfold permErrors at hE
  unfold processPermutation
  dsimp only
  rw [hE]

/-- C1: all-or-nothing batch outcome — whenever at least one backend compile
invocation fails, `CompileShader` returns an empty sequence, discarding every
successfully compiled artifact, regardless of how many other permutations
succeeded. -/
theorem compileShader_allOrNothing (concurrency : Nat) (be : Backend)
    (opts : CompilationOptions) (perms : List OptionPermutation)
    (hTot : TotalErrors be)
    (hFail : ∃ p ∈ perms, permSuccess be opts p = false) :
    CompileShader concurrency be opts perms = some [] := by
  unfold CompileShader runBatch
  split
  · simp [initState]
  · obtain ⟨st', hrun, _, hF, _⟩ := compileWorker_spec opts hTot perms initState
    rw [hrun]
    obtain ⟨p, hp, hps⟩ := hFail
    have hany : (perms.any fun p => !permSuccess be opts p) = true :=
      List.any_eq_true.mpr ⟨p, hp, by simp [hps]⟩
    simp [hF, hany, initState]

/-- C2: zero-failure completeness — for a non-empty permutation set whose
backend invocations all succeed (run with at least one unit of available
parallelism), `CompileShader` returns exactly one `CompiledShader` per input
permutation and the multiset of output keys equals the multiset of input
keys. -/
theorem compileShader_zeroFailureComplete (concurrency : Nat) (be : Backend)
    (opts : CompilationOptions) (perms : List OptionPermutation)
    (hC : 0 < concurrency) (hne : perms ≠ []) (hTot : TotalErrors be)
    (hOk : ∀ p ∈ perms, permSuccess be opts p = true) :
    ∃ out, CompileShader concurrency be opts perms = some out
      ∧ out.length = perms.length
      ∧ (out.map CompiledShader.Key : Multiset Nat)
          = (perms.map OptionPermutation.Key : Multiset Nat) := by
  obtain ⟨st', hrun, _, hF, hOut⟩ := compileWorker_spec opts hTot perms initState
  have hmin : ¬ threadCount concurrency perms.length = 0 := by
    have : 0 < perms.length := List.length_pos.mpr hne
    unfold threadCount
    omega
  have hany : (perms.any fun p => !permSuccess be opts p) = false := by
    rw [List.any_eq_false]
    intro p hp
    simp [hOk p hp]
  have hFf : st'.IsFailed = false := by
    rw [hF, hany]
    simp [initState]
  have hOutEq := hOut hOk
  have hlist : st'.Output.map CompiledShader.Key = perms.map OptionPermutation.Key := by
    rw [hOutEq]
    simp [initState, postProcessResult_Key]
  refine ⟨st'.Output, ?_, ?_, ?_⟩
  · unfold CompileShader runBatch
    rw [if_neg hmin, hrun]
    simp [hFf]
  · rw [hOutEq]
    simp [initState]
  · rw [hlist]

/-- The C4 claim is refuted at zero available parallelism units: with one
permutation pending, `min(hardware_concurrency, permutations.size())` spawns
no worker at all even though work exists. -/
theorem threadCount_sizing_cex : (0 : Nat) < 1 ∧ threadCount 0 1 = 0 := by decide

/-- C4 (amended): the spawned worker count equals `min(C, N)`; it never
exceeds the permutation count; it is positive whenever both work and at
least one unit of parallelism exist; and for zero permutations no worker
runs and the batch returns an empty sequence with the failure flag clear. -/
theorem threadCount_sizing (concurrency : Nat) (be : Backend)
    (opts : CompilationOptions) (perms : List OptionPermutation) :
    threadCount concurrency perms.length = min concurrency perms.length
    ∧ threadCount concurrency perms.length ≤ perms.length
    ∧ (0 < perms.length → 0 < concurrency → 0 < threadCount concurrency perms.length)
    ∧ runBatch concurrency be opts [] = some initState
    ∧ CompileShader concurrency be opts [] = some []
    ∧ initState.IsFailed = false := by
  refine ⟨rfl, Nat.min_le_right _ _, ?_, ?_, ?_, rfl⟩
  · unfold threadCount
    omega
  · unfold runBatch threadCount
    simp
  · unfold CompileShader runBatch threadCount
    simp [initState]

/-- C6: optimization-flag mapping — level `-1` contributes exactly the
skip-optimization flag, levels `0..3` exactly the corresponding fixed tier
flag, and every other level contributes no optimization flag at all; the
five flag constants are pairwise distinct. -/
theorem deriveFlags_optimizationMapping (o : CompilationOptions) :
    (deriveFlags o).filter isOptimizationFlag
      = (if o.OptimizationLevel = -1 then [CompileFlag.D3DCOMPILE_SKIP_OPTIMIZATION]
         else if o.OptimizationLevel = 0 then [CompileFlag.D3DCOMPILE_OPTIMIZATION_LEVEL0]
         else if o.OptimizationLevel = 1 then [CompileFlag.D3DCOMPILE_OPTIMIZATION_LEVEL1]
         else if o.OptimizationLevel = 2 then [CompileFlag.D3DCOMPILE_OPTIMIZATION_LEVEL2]
         else if o.OptimizationLevel = 3 then [CompileFlag.D3DCOMPILE_OPTIMIZATION_LEVEL3]
         else [])
    ∧ List.Nodup [CompileFlag.D3DCOMPILE_SKIP_OPTIMIZATION,
        CompileFlag.D3DCOMPILE_OPTIMIZATION_LEVEL0, CompileFlag.D3DCOMPILE_OPTIMIZATION_LEVEL1,
        CompileFlag.D3DCOMPILE_OPTIMIZATION_LEVEL2, CompileFlag.D3DCOMPILE_OPTIMIZATION_LEVEL3] := by
  constructor
  · rcases o with ⟨d, u, l⟩
    cases d <;> simp only [deriveFlags] <;> split_ifs <;> simp [isOptimizationFlag]
  · decide

/-- C8: queue-drain invariant — a worker is defined on any queue whose
diagnostics are non-null, attempts every queued permutation exactly once in
dequeue order, and terminates only once the queue is empty; this holds for
every starting state, in particular regardless of whether the failure flag
is already set or becomes set along the way. -/
theorem compileWorker_drainsQueue (be : Backend) (opts : CompilationOptions)
    (input : List OptionPermutation) (st : BatchState) (hTot : TotalErrors be) :
    (CompileWorker be opts input st).map BatchState.Attempted
      = some (st.Attempted ++ input) := by
  obtain ⟨st', hrun, hAtt, _, _⟩ := compileWorker_spec opts hTot input st
  simp [hrun, hAtt]

/-- C9: debug-name blob parsing — for any 4-byte `ShaderDebugName` header
(2-byte flags field and 2-byte name-length field, both arbitrary), the
recorded symbol file name is read as the C string starting immediately after
the header: both header fields are ignored and the name-length field never
bounds the read. -/
theorem parseDebugName_headerLayout (d : ShaderDebugName) (rest : List UInt8) :
    parseDebugName (encodeShaderDebugName d ++ rest) = readCString rest := rfl

/-- C10: the worker dereferences the backend's diagnostics blob
unconditionally, so one worker iteration has a defined result exactly when
the backend returned a non-null diagnostics blob for that invocation. -/
theorem processPermutation_errorsDeref (be : Backend) (opts : CompilationOptions)
    (p : OptionPermutation) (st : BatchState) :
    (processPermutation be opts p st).isSome = (permErrors be opts p).isSome := by
  cases hE : permErrors be opts p with
  | none => simp [processPermutation_none_eq st hE]
  | some e => simp [processPermutation_some_eq st hE]

/-- C5: debug-symbol postprocessing — on a successful compile with
`IsDebug = true` and `UseExternalDebugSymbols = true` where both the symbol
blob and the name blob are obtainable, the artifact carries the
debug-stripped binary (not the original) together with the parsed symbol
name and the symbol data; with `UseExternalDebugSymbols = false` the
artifact carries the unstripped binary and no symbol data. -/
theorem postProcess_debugSymbolPath (be : Backend) (opts : CompilationOptions)
    (p : OptionPermutation) (hs : permSuccess be opts p = true) :
    (opts.IsDebug = true → opts.UseExternalDebugSymbols = true →
      ∀ pd nb,
        be.getPdb (be.compile (buildMacros p.Defines) (deriveFlags opts)).binary = some pd →
        be.getDebugName (be.compile (buildMacros p.Defines) (deriveFlags opts)).binary = some nb →
          postProcessResult be opts p (be.compile (buildMacros p.Defines) (deriveFlags opts))
            = { Key := p.Key,
                Data := be.strip (be.compile (buildMacros p.Defines) (deriveFlags opts)).binary,
                PdbName := some (parseDebugName nb), PdbData := some pd })
    ∧ (opts.UseExternalDebugSymbols = false →
        postProcessResult be opts p (be.compile (buildMacros p.Defines) (deriveFlags opts))
          = { Key := p.Key,
              Data := (be.compile (buildMacros p.Defines) (deriveFlags opts)).binary,
              PdbName := none, PdbData := none }) := by
  have hsucc : (be.compile (buildMacros p.Defines) (deriveFlags opts)).success = true := hs
  constructor
  · intro hd he pd nb hpdb hnb
    simp [postProcessResult, hsucc, hd, he, hpdb, hnb]
  · intro he
    simp [postProcessResult, hsucc, he]

/-- The C3 claim is refuted on the code: when the pdb blob is missing, the
debug branch still strips the binary (`D3DStripShader` and the swap run
unconditionally), so the artifact's final bytes differ from the original
binary. -/
theorem postProcess_missingBlob_cex :
    permSuccess beNoPdb optsDbg permW = true
    ∧ optsDbg.IsDebug = true
    ∧ optsDbg.UseExternalDebugSymbols = true
    ∧ beNoPdb.getPdb
        (beNoPdb.compile (buildMacros permW.Defines) (deriveFlags optsDbg)).binary = none
    ∧ (postProcessResult beNoPdb optsDbg permW
          (beNoPdb.compile (buildMacros permW.Defines) (deriveFlags optsDbg))).Data
        ≠ (beNoPdb.compile (buildMacros permW.Defines) (deriveFlags optsDbg)).binary := by
  decide

/-- C3 (amended): on a successful compile with `IsDebug` and
`UseExternalDebugSymbols` both true, if the backend yields no symbol blob or
no name blob, the artifact carries no symbol data and the permutation is not
treated as a failure, but its final bytes are the debug-stripped binary —
stripping is still applied, not skipped. -/
theorem postProcess_missingBlob (be : Backend) (opts : CompilationOptions)
    (p : OptionPermutation) (hs : permSuccess be opts p = true)
    (hd : opts.IsDebug = true) (he : opts.UseExternalDebugSymbols = true)
    (hmiss :
      be.getPdb (be.compile (buildMacros p.Defines) (deriveFlags opts)).binary = none
      ∨ be.getDebugName (be.compile (buildMacros p.Defines) (deriveFlags opts)).binary = none) :
    postProcessResult be opts p (be.compile (buildMacros p.Defines) (deriveFlags opts))
        = { Key := p.Key,
            Data := be.strip (be.compile (buildMacros p.Defines) (deriveFlags opts)).binary,
            PdbName := none, PdbData := none }
    ∧ (∀ st st2, processPermutation be opts p st = some st2 → st2.IsFailed = st.IsFailed) := by
  have hsucc : (be.compile (buildMacros p.Defines) (deriveFlags opts)).success = true := hs
  constructor
  · rcases hmiss with h | h
    · simp [postProcessResult, hsucc, hd, he, h]
    · cases hpdb : be.getPdb (be.compile (buildMacros p.Defines) (deriveFlags opts)).binary <;>
        simp [postProcessResult, hsucc, hd, he, h, hpdb]
  · intro st st2 hpp
    cases hE : permErrors be opts p with
    | none => rw [processPermutation_none_eq st hE] at hpp; exact absurd hpp (by simp)
    | some e =>
      rw [processPermutation_some_eq st hE] at hpp
      have hst2 : st2 = processPermutationTotal be opts p e st := by
        exact (Option.some_injective _ hpp).symm
      rw [hst2, processPermutationTotal_IsFailed]
      simp [hs]

theorem emplaceEmit_inv {st : BatchState} (h : MessagesInv st) (m : String) :
    MessagesInv (emplaceEmit st m) := by
  obtain ⟨he, hn, hf⟩ := h
  unfold emplaceEmit
  split_ifs with h1 h2
  · exact ⟨he, hn, hf⟩
  · exact ⟨he, hn, hf⟩
  · refine ⟨by rw [he], ?_, ?_⟩
    · rw [List.nodup_append]
      exact ⟨hn, List.nodup_singleton m, by simp [h2]⟩
    · intro x hx
      rcases List.mem_append.mp hx with hx1 | hx2
      · exact hf x hx1
      · rw [List.mem_singleton.mp hx2]
        exact Bool.eq_false_iff.mpr h1

theorem emplaceEmit_mono {st : BatchState} {x : String} (hx : x ∈ st.Messages) (m : String) :
    x ∈ (emplaceEmit st m).Messages := by
  unfold emplaceEmit
  split_ifs <;> simp [hx]

theorem emplaceEmit_mem (st : BatchState) (m : String)
    (hm : warningIgnoreMatch m = false) :
    m ∈ (emplaceEmit st m).Messages := by
  unfold emplaceEmit
  split_ifs with h1 h2
  · rw [hm] at h1; exact absurd h1 (by simp)
  · exact h2
  · simp

theorem processMessages_inv (lines : List String) :
    ∀ st, MessagesInv st → MessagesInv (processMessages lines st) := by
  induction lines with
  | nil => intro st h; exact h
  | cons m rest ih => intro st h; exact ih _ (emplaceEmit_inv h m)

theorem processMessages_mono (lines : List String) :
    ∀ st x, x ∈ st.Messages → x ∈ (processMessages lines st).Messages := by
  induction lines with
  | nil => intro st x hx; exact hx
  | cons m rest ih => intro st x hx; exact ih _ x (emplaceEmit_mono hx m)

theorem processMessages_mem (lines : List String) :
    ∀ st, ∀ line ∈ lines, warningIgnoreMatch line = false →
      line ∈ (processMessages lines st).Messages := by
  induction lines with
  | nil => intro st line h; simp at h
  | cons m rest ih =>
    intro st line hmem hline
    rcases List.mem_cons.mp hmem with rfl | hmem'
    · exact processMessages_mono rest _ line (emplaceEmit_mem st line hline)
    · exact ih _ line hmem' hline

theorem processPermutationTotal_Messages (be : Backend) (opts : CompilationOptions)
    (p : OptionPermutation) (e : String) (st : BatchState) :
    (processPermutationTotal be opts p e st).Messages
      = (processMessages (getlines e) st).Messages := by
  unfold processPermutationTotal
  dsimp only
  split <;> rfl

theorem processPermutationTotal_Emitted (be : Backend) (opts : CompilationOptions)
    (p : OptionPermutation) (e : String) (st : BatchState) :
    (processPermutationTotal be opts p e st).Emitted
      = (processMessages (getlines e) st).Emitted := by
  unfold processPermutationTotal
  dsimp only
  split <;> rfl

/-- Batch-level message bookkeeping: the run preserves the log/set invariant,
never drops set entries, and inserts every non-ignored diagnostic line of
every attempted permutation. -/
theorem compileWorker_messages_aux {be : Backend} (opts : CompilationOptions)
    (hTot : TotalErrors be) :
    ∀ (input : List OptionPermutation) (st : BatchState), MessagesInv st →
      ∃ st', CompileWorker be opts input st = some st'
        ∧ MessagesInv st'
        ∧ (∀ x ∈ st.Messages, x ∈ st'.Messages)
        ∧ (∀ p ∈ input, ∀ e, permErrors be opts p = some e →
            ∀ line ∈ getlines e, warningIgnoreMatch line = false →
              line ∈ st'.Messages) := by
  intro input
  induction input with
  | nil =>
    intro st h
    exact ⟨st, rfl, h, fun x hx => hx,
      fun p hp => absurd hp (List.not_mem_nil p)⟩
  | cons p rest ih =>
    intro st h
    obtain ⟨e, hE⟩ := permErrors_total hTot opts p
    have hpm := processMessages_inv (getlines e) st h
    have h1 : MessagesInv (processPermutationTotal be opts p e st) := by
      obtain ⟨a, b, c⟩ := hpm
      refine ⟨?_, ?_, ?_⟩
      · rw [processPermutationTotal_Emitted, processPermutationTotal_Messages]; exact a
      · rw [processPermutationTotal_Messages]; exact b
      · rw [processPermutationTotal_Messages]; exact c
    obtain ⟨st', hrun, hinv, hmono, hcov⟩ := ih (processPermutationTotal be opts p e st) h1
    refine ⟨st', ?_, hinv, ?_, ?_⟩
    · show (match processPermutation be opts p st with
        | none => none
        | some st1 => CompileWorker be opts rest st1) = some st'
      rw [processPermutation_some_eq st hE]
      exact hrun
    · intro x hx
      refine hmono x ?_
      rw [processPermutationTotal_Messages]
      exact processMessages_mono (getlines e) st x hx
    · intro q hq e' hE' line hlmem hline
      rcases List.mem_cons.mp hq with rfl | hq'
      · have : e' = e := by rw [hE] at hE'; exact (Option.some_injective _ hE').symm
        subst this
        refine hmono line ?_
        rw [processPermutationTotal_Messages]
        exact processMessages_mem (getlines e') st line hlmem hline
      · exact hcov q hq' e' hE' line hlmem hline

/-- C7: diagnostic filtering and deduplication — over a whole batch run,
no emitted line matches the fixed ignore pattern, the emitted log contains
no duplicates, and every non-ignored diagnostic line produced by any
attempted permutation is emitted exactly once, even when several
permutations produce it. -/
theorem compileWorker_messageDedup (be : Backend) (opts : CompilationOptions)
    (input : List OptionPermutation) (st' : BatchState)
    (hTot : TotalErrors be)
    (hrun : CompileWorker be opts input initState = some st') :
    (∀ m ∈ st'.Emitted, warningIgnoreMatch m = false)
    ∧ st'.Emitted.Nodup
    ∧ (∀ p ∈ input, ∀ e, permErrors be opts p = some e →
        ∀ line ∈ getlines e, warningIgnoreMatch line = false →
          List.count line st'.Emitted = 1) := by
  obtain ⟨st2, hrun2, ⟨hEq, hNodup, hFilt⟩, _, hcov⟩ :=
    compileWorker_messages_aux opts hTot input initState ⟨rfl, List.nodup_nil, by simp [initState]⟩
  rw [hrun2] at hrun
  obtain rfl : st2 = st' := Option.some_injective _ hrun
  refine ⟨?_, ?_, ?_⟩
  · intro m hm
    rw [hEq] at hm
    exact hFilt m hm
  · rw [hEq]
    exact hNodup
  · intro p hp e hE line hlmem hline
    have hmem : line ∈ st2.Messages := hcov p hp e hE line hlmem hline
    rw [hEq]
    exact List.nodup_iff_count_eq_one.mp hNodup line hmem

/-- Witness for C1: a one-permutation batch against a failing backend
returns the empty sequence. -/
theorem compileShader_allOrNothing_witness :
    CompileShader 1 beBad optsPlain [permW] = some [] :=
  compileShader_allOrNothing 1 beBad optsPlain [permW]
    (by intro m f; simp [beBad])
    ⟨permW, by simp, by decide⟩

/-- Witness for C2: a one-permutation all-success batch yields one artifact
with the matching key. -/
theorem compileShader_zeroFailureComplete_witness :
    ∃ out, CompileShader 1 beOk optsPlain [permW] = some out
      ∧ out.length = [permW].length
      ∧ (out.map CompiledShader.Key : Multiset Nat)
          = ([permW].map OptionPermutation.Key : Multiset Nat) :=
  compileShader_zeroFailureComplete 1 beOk optsPlain [permW]
    (by decide) (by decide)
    (by intro m f; simp [beOk])
    (by intro p hp; rw [List.mem_singleton.mp hp]; decide)

/-- Witness for the amended C3: with the pdb blob missing, the artifact is
the stripped binary with no symbol data, and success is still recorded. -/
theorem postProcess_missingBlob_witness :
    postProcessResult beNoPdb optsDbg permW
        (beNoPdb.compile (buildMacros permW.Defines) (deriveFlags optsDbg))
      = { Key := permW.Key,
          Data := beNoPdb.strip
            (beNoPdb.compile (buildMacros permW.Defines) (deriveFlags optsDbg)).binary,
          PdbName := none, PdbData := none }
    ∧ (∀ st st2, processPermutation beNoPdb optsDbg permW st = some st2 →
        st2.IsFailed = st.IsFailed) :=
  postProcess_missingBlob beNoPdb optsDbg permW (by decide) rfl rfl (Or.inl (by decide))

/-- Witness for the amended C4 at two parallelism units and one
permutation. -/
theorem threadCount_sizing_witness :
    0 < threadCount 2 1 ∧ threadCount 2 1 ≤ 1
      ∧ CompileShader 2 beOk optsPlain [] = some [] := by
  have h := threadCount_sizing 2 beOk optsPlain [permW]
  exact ⟨h.2.2.1 (by decide) (by decide), h.2.1, h.2.2.2.2.1⟩

/-- Witness for C5: both debug paths at concrete backends. -/
theorem postProcess_debugSymbolPath_witness :
    postProcessResult beDbg optsDbg permW
        (beDbg.compile (buildMacros permW.Defines) (deriveFlags optsDbg))
      = { Key := permW.Key,
          Data := beDbg.strip
            (beDbg.compile (buildMacros permW.Defines) (deriveFlags optsDbg)).binary,
          PdbName := some (parseDebugName [0, 0, 3, 0, 65, 66, 67, 0, 99]),
          PdbData := some [7, 7] }
    ∧ postProcessResult beDbg optsPlain permW
        (beDbg.compile (buildMacros permW.Defines) (deriveFlags optsPlain))
      = { Key := permW.Key,
          Data := (beDbg.compile (buildMacros permW.Defines) (deriveFlags optsPlain)).binary,
          PdbName := none, PdbData := none } :=
  ⟨(postProcess_debugSymbolPath beDbg optsDbg permW (by decide)).1 rfl rfl
      [7, 7] [0, 0, 3, 0, 65, 66, 67, 0, 99] (by decide) (by decide),
   (postProcess_debugSymbolPath beDbg optsPlain permW (by decide)).2 rfl⟩

/-- Witness for C7: two permutations repeating the same diagnostics emit the
repeated line exactly once. -/
theorem compileWorker_messageDedup_witness :
    List.count "dup line" stW7.Emitted = 1 ∧ stW7.Emitted.Nodup := by
  have h := compileWorker_messageDedup beRepeat optsPlain [permW, permW2] stW7
    (by intro m f; simp [beRepeat]) (by decide)
  exact ⟨h.2.2 permW (by simp) "dup line\ndup line\nuniq line" (by decide)
    "dup line" (by decide) (by decide), h.2.1⟩

/-- Witness for C8: a failing backend still has its whole queue attempted. -/
theorem compileWorker_drainsQueue_witness :
    (CompileWorker beBad optsPlain [permW, permW2] initState).map BatchState.Attempted
      = some (initState.Attempted ++ [permW, permW2]) :=
  compileWorker_drainsQueue beBad optsPlain [permW, permW2] initState
    (by intro m f; simp [beBad])

end ShaderGenerator
